import Mathlib

/-!
# Verification of `justopinion` (decisions, citations, text selection)

Shallow embedding of the `justopinion` repository's data model and
operations, translated from `src/justopinion/decisions.py` and
`src/justopinion/citations.py`.  Python `str` is modelled as Lean
`String` (a list of unicode code points, matching Python's code-point
indexing); Python `None`-able fields become `Option`; functions that
`raise` return `Except` or pair their result with an `Option` error so
that the state left behind by a raising call is explicit.

External collaborators (the `eyecite` citation parser, `pydantic`'s
ISO-date parsing, and the `anchorpoint` text-selector library) are not
part of this repository's source; where a claim depends on them they are
modelled from the specification, marked `Modelled from the spec:`.
-/

namespace Justopinion

/-- The scan of Python `s.replace(pat, repl)`, written with explicit
fuel so that it is structurally recursive (and hence reduces in the
kernel); each step consumes at least one character of `s`, so fuel
`s.length` is always enough. -/
def pyReplaceFuel (repl pat : List Char) : Nat → List Char → List Char
  | 0, s => s
  | _ + 1, [] => []
  | fuel + 1, c :: rest =>
    if pat ≠ [] ∧ pat.isPrefixOf (c :: rest) then
      repl ++ pyReplaceFuel repl pat fuel (List.drop (pat.length - 1) rest)
    else
      c :: pyReplaceFuel repl pat fuel rest

/-- Python `s.replace(pat, repl)` on code-point lists: replaces
non-overlapping occurrences left to right, resuming the scan after each
replacement.  An empty pattern is never used by the embedded code. -/
def pyReplace (s pat repl : List Char) : List Char :=
  pyReplaceFuel repl pat s.length s

/-- Python `s.strip(chars)`: drop characters from `cs` at both ends. -/
def pyStrip (cs : List Char) (s : List Char) : List Char :=
  ((s.dropWhile (· ∈ cs)).reverse.dropWhile (· ∈ cs)).reverse

/-- `justopinion.citations.CAPCitation`: a case citation generated by
the Case Access Project. -/
structure CAPCitation where
  cite : String
  reporter : Option String := none
  category : Option String := none
  case_ids : List Int := []
  type : Option String := none
deriving Repr, DecidableEq

/-- `CAPCitation.__str__`. -/
def CAPCitation.str (c : CAPCitation) : String :=
  "Citation to " ++ c.cite

/-- `justopinion.citations.ReporterCitation`. -/
structure ReporterCitation where
  volume : Int
  reporter : String
  page : String
deriving Repr, DecidableEq

/-- `justopinion.decisions.Opinion`: type, author and text buffer.
Field defaults follow the pydantic model. -/
structure Opinion where
  type : String := "majority"
  author : String := ""
  text : String := ""
deriving Repr, DecidableEq

/-- `Opinion.remove_author_name_punctuation`, the pydantic validator run
on the `author` field before construction: `v or ""`, then
`.replace("Judge.", "Judge").replace("Justice.", "Justice")`, then
`.strip(", -:;")`. -/
def remove_author_name_punctuation (v : Option String) : String :=
  let result : List Char := (v.getD "").data
  let result := pyReplace result "Judge.".data "Judge".data
  let result := pyReplace result "Justice.".data "Justice".data
  String.mk (pyStrip [',', ' ', '-', ':', ';'] result)

/-- Constructing an `Opinion`, which runs the `author` validator. -/
def mkOpinion (type : String := "majority") (author : Option String := some "")
    (text : String := "") : Opinion :=
  { type := type, author := remove_author_name_punctuation author, text := text }

/-- `Opinion.__str__`. -/
def Opinion.str (o : Opinion) : String :=
  let result := if o.type ≠ "" then o.type ++ " opinion" else "opinion"
  if o.author ≠ "" then result ++ " by " ++ o.author else result

/-- `justopinion.decisions.CaseData`: the content of a Decision. -/
structure CaseData where
  head_matter : Option String := none
  corrections : Option String := none
  parties : List String := []
  attorneys : List String := []
  opinions : List Opinion := []
  judges : List String := []
deriving Repr, DecidableEq

/-- `justopinion.decisions.CaseBody`. -/
structure CaseBody where
  data : CaseData
  status : String := ""
deriving Repr, DecidableEq

/-- `justopinion.decisions.Court` (URL fields modelled as strings). -/
structure Court where
  id : Int
  name : String
  url : String
  slug : String
  name_abbreviation : String := ""
deriving Repr, DecidableEq

/-- `justopinion.decisions.Jurisdiction`. -/
structure Jurisdiction where
  id : Int
  name : String
  url : String
  slug : String
  whitelisted : Bool
  name_abbreviation : String := ""
deriving Repr, DecidableEq

/-- A calendar date, the model of Python `datetime.date`. -/
structure Date where
  year : Nat
  month : Nat
  day : Nat
deriving Repr, DecidableEq

/-- Zero-padded two-digit rendering used by `date.isoformat`. -/
def pad2 (n : Nat) : String :=
  if n < 10 then "0" ++ toString n else toString n

/-- Zero-padded four-digit rendering used by `date.isoformat`. -/
def pad4 (n : Nat) : String :=
  if n < 10 then "000" ++ toString n
  else if n < 100 then "00" ++ toString n
  else if n < 1000 then "0" ++ toString n
  else toString n

/-- `date.isoformat()` / `f"{date}"`: `YYYY-MM-DD`. -/
def Date.iso (d : Date) : String :=
  pad4 d.year ++ "-" ++ pad2 d.month ++ "-" ++ pad2 d.day

/-- `justopinion.decisions.Decision`.  The `analysis` field
(float-valued CAP metadata, unused by every operation) and the
datetime-valued `last_updated` are carried as unstructured options. -/
structure Decision where
  decision_date : Date
  name : Option String := none
  name_abbreviation : Option String := none
  docket_num : Option String := none
  citations : Option (List CAPCitation) := none
  parties : List String := []
  attorneys : List String := []
  first_page : Option Int := none
  last_page : Option Int := none
  court : Option Court := none
  casebody : Option CaseBody := none
  jurisdiction : Option Jurisdiction := none
  cites_to : Option (List CAPCitation) := none
  id : Option Int := none
  last_updated : Option String := none
  frontend_url : Option String := none
deriving Repr, DecidableEq

/-- Python `a or b` on `None`-able strings: `a` unless it is `None` or
empty, else `b`. -/
def pyOrStr (a b : Option String) : Option String :=
  match a with
  | some s => if s = "" then b else some s
  | none => b

/-- Python `f"{x}"` on a `None`-able string: `None` renders as "None". -/
def pyStrOptional : Option String → String
  | none => "None"
  | some s => s

/-- `Decision.__str__`: `citation` is `self.citations[0].cite` when the
citation list is truthy (non-`None` and non-empty), else `""`. -/
def Decision.str (d : Decision) : String :=
  let citation :=
    match d.citations with
    | some (c :: _) => c.cite
    | _ => ""
  pyStrOptional (pyOrStr d.name_abbreviation d.name) ++ ", " ++ citation
    ++ " (" ++ d.decision_date.iso ++ ")"

/-- `Decision.decision_date_must_include_day` on the string branch: a
7-character string gets `"-01"` appended; everything else is returned
unchanged. -/
def decision_date_must_include_day (v : String) : String :=
  if v.length = 7 then v ++ "-01" else v

/-- `Decision.opinions`: the casebody's opinions, or `[]` when the
casebody is `None`. -/
def Decision.opinions (d : Decision) : List Opinion :=
  match d.casebody with
  | some cb => cb.data.opinions
  | none => []

/-- `Decision.majority`. -/
def Decision.majority (d : Decision) : Option Opinion :=
  d.opinions.find? (fun o => o.type == "majority")

/-- `Decision.find_matching_opinion`: with both filters empty it
returns the first opinion if any; otherwise the first opinion whose
type matches (or the type filter is empty) and whose author matches
(or the author filter is empty). -/
def Decision.find_matching_opinion (d : Decision)
    (opinion_type : String := "") (opinion_author : String := "") :
    Option Opinion :=
  if opinion_type = "" ∧ opinion_author = "" then
    d.opinions.head?
  else
    d.opinions.find? (fun o =>
      (opinion_type == o.type || opinion_type == "") &&
      (opinion_author == o.author || opinion_author == ""))

/-- `Decision.add_opinion`, with the mutation of `self` made explicit:
the returned `Decision` is the state after the call and the `Option
String` is the raised `DecisionError` message, if any.  A `raise`
happens before any assignment, so the error branch returns the input
state unchanged. -/
def Decision.add_opinion (d : Decision) (o : Opinion) :
    Decision × Option String :=
  match d.find_matching_opinion o.type o.author with
  | some existing =>
    (d, some ("Decision " ++ d.str ++ " already has an Opinion with type "
      ++ existing.type ++ " and author " ++ existing.author ++ "."))
  | none =>
    let cb := d.casebody.getD { data := {} }
    let cb2 := { cb with data :=
      { cb.data with opinions := cb.data.opinions ++ [o] } }
    ({ d with casebody := some cb2 }, none)

/-- A citation object produced by the external `eyecite.get_citations`
parser: either a `CaseCitation` (carrying the canonical string its
`corrected_citation()` method returns) or a citation of some other
class (carrying its display string and class name). -/
inductive ParsedCitation where
  | caseCite (corrected : String) (display : String := "")
  | other (display : String) (className : String)
deriving Repr, DecidableEq

/-- Whether a parse is a `CaseCitation`. -/
def ParsedCitation.isCase : ParsedCitation → Bool
  | .caseCite _ _ => true
  | .other _ _ => false

/-- The loop of `normalize_case_cite` over the parses: the
`corrected_citation()` of the first `CaseCitation`, if any. -/
def firstCaseCitation : List ParsedCitation → Option String
  | [] => none
  | .caseCite corrected _ :: _ => some corrected
  | .other _ _ :: rest => firstCaseCitation rest

/-- The sentence appended to the error message for one non-case parse:
`" {bad_cite} was type {bad_cite.__class__.__name__}, not CaseCitation."`. -/
def badCiteSentence : ParsedCitation → String
  | .caseCite _ display => " " ++ display ++ " was type CaseCitation, not CaseCitation."
  | .other display className =>
    " " ++ display ++ " was type " ++ className ++ ", not CaseCitation."

/-- The `ValueError` message of `normalize_case_cite` when no
`CaseCitation` was parsed: the base sentence naming the text, followed
by one sentence per offending parse. -/
def couldNotLocateMsg (cite : String) (parses : List ParsedCitation) : String :=
  "Could not locate a CaseCitation in the text " ++ cite ++ "."
    ++ String.join (parses.map badCiteSentence)

/-- The `str` branch of `justopinion.citations.normalize_case_cite`,
with the external `eyecite.get_citations(cite)` result passed in as
`parses`: return the first `CaseCitation`'s corrected citation, else
raise `ValueError` listing every parse found. -/
def normalize_case_cite_str (cite : String) (parses : List ParsedCitation) :
    Except String String :=
  match firstCaseCitation parses with
  | some corrected => .ok corrected
  | none => .error (couldNotLocateMsg cite parses)

/-- The argument of `normalize_case_cite`:
`Union[str, CaseCitation, CAPCitation]`. -/
inductive CiteInput where
  | str (s : String)
  | caseCite (corrected : String) (display : String := "")
  | cap (c : CAPCitation)
deriving Repr, DecidableEq

/-- `justopinion.citations.normalize_case_cite`, parameterized by the
external parser `getCitations`: a `CAPCitation` yields its `cite`
field, a string is parsed, and an eyecite `CaseCitation` yields its
`corrected_citation()`. -/
def normalize_case_cite (getCitations : String → List ParsedCitation) :
    CiteInput → Except String String
  | .cap c => .ok c.cite
  | .str s => normalize_case_cite_str s (getCitations s)
  | .caseCite corrected _ => .ok corrected

/-- Modelled from the spec: `pydantic`'s parsing of an ISO-8601
`YYYY-MM-DD` date string into the stored `decision_date` (the parsing
library is an external collaborator, not part of this repository).
Exactly ten characters `YYYY-MM-DD`, all digit positions digits. -/
def parseIsoDate (s : String) : Option Date :=
  match s.data with
  | [y1, y2, y3, y4, s1, m1, m2, s2, d1, d2] =>
    if y1.isDigit ∧ y2.isDigit ∧ y3.isDigit ∧ y4.isDigit ∧ s1 = '-'
        ∧ m1.isDigit ∧ m2.isDigit ∧ s2 = '-' ∧ d1.isDigit ∧ d2.isDigit then
      some
        { year := ((y1.toNat - 48) * 10 + (y2.toNat - 48)) * 100
            + (y3.toNat - 48) * 10 + (y4.toNat - 48),
          month := (m1.toNat - 48) * 10 + (m2.toNat - 48),
          day := (d1.toNat - 48) * 10 + (d2.toNat - 48) }
    else none
  | _ => none

/-- The stored `decision_date` obtained from a string input: the
`decision_date_must_include_day` validator (from the source) followed
by ISO date parsing (modelled from the spec). -/
def decisionDateOfString (s : String) : Option Date :=
  parseIsoDate (decision_date_must_include_day s)

/-! ## Text-selector resolution engine

Modelled from the spec: the selector/position subsystem (the
`anchorpoint` library's `TextPositionSelector`, `TextQuoteSelector`,
`TextPositionSetFactory.from_selection` and
`TextPositionSet.as_text_sequence`) is consumed by
`Opinion.locate_text` / `Opinion.select_text` but its code is not under
this repository's source; the definitions below follow the
specification's §4.2–§4.4: case-insensitive matching of the quote
pattern (`prefix ++ exact ++ suffix`), every occurrence returned as a
separate Position covering `exact`, a `TextSelectionError` naming the
quote and the buffer when nothing matches, sequences resolved
independently and unioned into a sorted set with overlapping or
adjacent members merged, and rendering that inserts the ellipsis
character at every gap. -/

/-- A half-open character range `[start, stop)`.  The source field
`end` is called `stop` here because `end` is reserved in Lean. -/
structure TextPositionSelector where
  start : Nat
  stop : Nat
deriving Repr, DecidableEq

/-- A reference to a passage by its exact text with optional context.
The source fields `prefix`/`suffix` are called `pre`/`suf` here because
`prefix` is reserved in Lean; the empty string means absent. -/
structure TextQuoteSelector where
  exact : String
  pre : String := ""
  suf : String := ""
deriving Repr, DecidableEq

/-- Modelled from the spec: the error raised when a quote selector
matches nothing, identifying the unmatched quote and the text buffer it
was sought against. -/
structure TextSelectionError where
  quote : TextQuoteSelector
  text : String
deriving Repr, DecidableEq

/-- Case folding used for the spec's case-insensitive quote matching. -/
def lowerList (l : List Char) : List Char := l.map Char.toLower

/-- All indices (counting from `i`) at which `pat` occurs in `l`,
overlapping occurrences included, in increasing order. -/
def occurrencesFrom : List Char → List Char → Nat → List Nat
  | [], pat, i => if pat = [] then [i] else []
  | c :: rest, pat, i =>
    (if pat.isPrefixOf (c :: rest) then [i] else [])
      ++ occurrencesFrom rest pat (i + 1)

/-- Modelled from the spec (§4.4): resolve a quote selector against a
buffer, returning one Position per case-insensitive occurrence of
`pre ++ exact ++ suf`, each Position covering only the `exact` part. -/
def locateQuote (buf : String) (q : TextQuoteSelector) :
    List TextPositionSelector :=
  let pat := lowerList (q.pre.data ++ q.exact.data ++ q.suf.data)
  (occurrencesFrom (lowerList buf.data) pat 0).map
    (fun i => ⟨i + q.pre.length, i + q.pre.length + q.exact.length⟩)

/-- One element of a selection sequence: literal offsets, a quote
selector, or a plain string (an implicit quote selector). -/
inductive SelectionItem where
  | pos (p : TextPositionSelector)
  | quote (q : TextQuoteSelector)
  | str (s : String)
deriving Repr, DecidableEq

/-- A selection expression accepted by `locate_text` (§4.3): a boolean,
a single item, or a sequence of items. -/
inductive Selection where
  | whole (b : Bool)
  | item (i : SelectionItem)
  | seq (l : List SelectionItem)
deriving Repr, DecidableEq

/-- Insert a Position into a list sorted by `start` (then `stop`). -/
def insertPos (p : TextPositionSelector) :
    List TextPositionSelector → List TextPositionSelector
  | [] => [p]
  | q :: rest =>
    if p.start < q.start ∨ (p.start = q.start ∧ p.stop ≤ q.stop) then
      p :: q :: rest
    else q :: insertPos p rest

/-- Sort Positions by `start` (then `stop`). -/
def sortPositions : List TextPositionSelector → List TextPositionSelector
  | [] => []
  | p :: rest => insertPos p (sortPositions rest)

/-- The sweep of `mergePositions`: `cur` is the Position being grown;
each following Position either extends it (overlap or adjacency) or
closes it and starts a new one. -/
def mergeFrom (cur : TextPositionSelector) :
    List TextPositionSelector → List TextPositionSelector
  | [] => [cur]
  | q :: rest =>
    if q.start ≤ cur.stop then
      mergeFrom ⟨cur.start, max cur.stop q.stop⟩ rest
    else cur :: mergeFrom q rest

/-- Merge overlapping or adjacent members of a sorted Position list,
restoring the Position Set invariant (§3). -/
def mergePositions : List TextPositionSelector → List TextPositionSelector
  | [] => []
  | p :: rest => mergeFrom p rest

/-- Modelled from the spec (§4.3/§4.4): resolve one selection item
against a buffer.  A quote (or plain string) that matches nowhere
raises `TextSelectionError`. -/
def resolveItem (buf : String) : SelectionItem →
    Except TextSelectionError (List TextPositionSelector)
  | .pos p => .ok [p]
  | .quote q =>
    match locateQuote buf q with
    | [] => .error ⟨q, buf⟩
    | ps => .ok ps
  | .str s =>
    match locateQuote buf { exact := s } with
    | [] => .error ⟨{ exact := s }, buf⟩
    | ps => .ok ps

/-- Resolve the items of a sequence, propagating the first error. -/
def resolveItems (buf : String) : List SelectionItem →
    Except TextSelectionError (List TextPositionSelector)
  | [] => .ok []
  | i :: rest => do
    let ps ← resolveItem buf i
    let rest ← resolveItems buf rest
    pure (ps ++ rest)

/-- Modelled from the spec (§4.3): `from_selection`.  `True` selects
the whole buffer, `False` nothing; a single quote's occurrences are
returned as separate Positions; a sequence is resolved item by item and
unioned into one normalized (sorted, overlap/adjacency-merged) set. -/
def fromSelection (buf : String) : Selection →
    Except TextSelectionError (List TextPositionSelector)
  | .whole true => .ok [⟨0, buf.length⟩]
  | .whole false => .ok []
  | .item i => resolveItem buf i
  | .seq l => do
    let ps ← resolveItems buf l
    pure (mergePositions (sortPositions ps))

/-- The substring of `l` in the range `[a, b)`. -/
def extractRange (l : List Char) (a b : Nat) : List Char :=
  (l.drop a).take (b - a)

/-- The interior of the rendering: each Position's substring in order,
with the ellipsis character between two consecutive Positions exactly
when a gap separates them. -/
def renderParts (buf : List Char) : List TextPositionSelector → List Char
  | [] => []
  | [p] => extractRange buf p.start p.stop
  | p :: q :: rest =>
    extractRange buf p.start p.stop
      ++ (if p.stop < q.start then ['…'] else [])
      ++ renderParts buf (q :: rest)

/-- Modelled from the spec (§4.2): render a Position Set over a buffer
to the canonical display string, with an ellipsis for the gap before
the first Position, between non-adjacent Positions, and after the last
Position. -/
def asTextString (buf : String) (ps : List TextPositionSelector) : String :=
  match ps with
  | [] => ""
  | p :: rest =>
    let lead : List Char := if 0 < p.start then ['…'] else []
    let lastStop := (rest.getLastD p).stop
    let trail : List Char := if lastStop < buf.length then ['…'] else []
    String.mk (lead ++ renderParts buf.data (p :: rest) ++ trail)

/-- `Opinion.locate_text`: delegate selection resolution to the engine
against the opinion's own text buffer. -/
def Opinion.locate_text (o : Opinion) (selection : Selection) :
    Except TextSelectionError (List TextPositionSelector) :=
  fromSelection o.text selection

/-- `Opinion.select_text`: locate, then render as a text sequence
string. -/
def Opinion.select_text (o : Opinion) (selection : Selection) :
    Except TextSelectionError String :=
  (o.locate_text selection).map (asTextString o.text)

/-- Equality of `Except` values is decidable when it is on both sides;
used to evaluate the embedded fallible operations on concrete input. -/
instance {ε α : Type} [DecidableEq ε] [DecidableEq α] :
    DecidableEq (Except ε α) := fun x y =>
  match x, y with
  | .ok a, .ok b =>
    if h : a = b then .isTrue (by rw [h])
    else .isFalse (fun hc => h (Except.ok.inj hc))
  | .error a, .error b =>
    if h : a = b then .isTrue (by rw [h])
    else .isFalse (fun hc => h (Except.error.inj hc))
  | .ok _, .error _ => .isFalse (fun hc => Except.noConfusion hc)
  | .error _, .ok _ => .isFalse (fun hc => Except.noConfusion hc)

/-! ## Concrete fixtures -/

/-- A majority opinion by Scalia, as stored on a decision. -/
def scaliaMajority : Opinion := { type := "majority", author := "Scalia" }

/-- A decision already holding one majority opinion. -/
def dupDecision : Decision :=
  { decision_date := ⟨1803, 2, 24⟩,
    casebody := some { data := { opinions := [scaliaMajority] } } }

/-- A freshly constructed opinion with every field defaulted:
`type="majority"`, `author=""`. -/
def blankAuthorOpinion : Opinion := {}

/-- A decision with no casebody at all. -/
def blankDecision : Decision := { decision_date := ⟨2019, 1, 1⟩ }

/-! ## Claims about Opinion construction and Decision mutation -/

/-- C3 counterexample: constructing an Opinion with
`author="Judge. Scalia."` does not yield author `"Judge Scalia"`; the
trailing period survives because the strip set `", -:;"` does not
contain `'.'`. -/
theorem author_judge_scalia_counterexample :
    (mkOpinion "majority" (some "Judge. Scalia.") "").author
      ≠ "Judge Scalia" := by decide

/-- C3 (amended): constructing an Opinion with `author="Judge. Scalia."`
yields author `"Judge Scalia."` — the title's period is removed by the
`"Judge." → "Judge"` replacement, but the sentence-final period is kept
because only the separator characters `", -:;"` are stripped from the
ends (second conjunct: those separators, and a `"Justice."` title, are
stripped). -/
theorem author_normalization_keeps_trailing_period :
    (mkOpinion "majority" (some "Judge. Scalia.") "").author
        = "Judge Scalia."
      ∧ (mkOpinion "majority" (some ", Justice. Breyer -") "").author
        = "Justice Breyer" := by decide

/-- C4: when `add_opinion` raises `DecisionError`, the decision is left
exactly as it was before the call. -/
theorem add_opinion_error_leaves_decision_unchanged
    (d : Decision) (o : Opinion)
    (h : ((d.add_opinion o).2).isSome) :
    (d.add_opinion o).1 = d := by
  unfold Decision.add_opinion at *
  cases hf : d.find_matching_opinion o.type o.author with
  | some existing => simp [hf]
  | none => simp [hf] at h

/-- C4 witness: adding a defaulted majority opinion to a decision that
already has a majority opinion raises, and leaves the decision equal to
its old value. -/
theorem add_opinion_error_leaves_decision_unchanged_witness :
    (dupDecision.add_opinion blankAuthorOpinion).1 = dupDecision :=
  add_opinion_error_leaves_decision_unchanged dupDecision blankAuthorOpinion
    (by decide)

/-- The casebody default built inside `add_opinion` carries the same
opinion list that `Decision.opinions` reports. -/
theorem getD_casebody_opinions (d : Decision) :
    (d.casebody.getD { data := {} }).data.opinions = d.opinions := by
  cases h : d.casebody <;> simp [Decision.opinions, h]

/-- C10: on a decision whose casebody is `None`, `opinions` is empty and
`add_opinion` cannot raise: it creates a fresh casebody, appends the
opinion, and afterwards `opinions` has exactly that one element. -/
theorem add_opinion_to_blank_decision
    (d : Decision) (o : Opinion) (h : d.casebody = none) :
    d.opinions = []
      ∧ (d.add_opinion o).2 = none
      ∧ (d.add_opinion o).1.opinions = [o] := by
  have hop : d.opinions = [] := by simp [Decision.opinions, h]
  have hfm : ∀ t a, d.find_matching_opinion t a = none := by
    intro t a
    unfold Decision.find_matching_opinion
    rw [hop]
    simp
  refine ⟨hop, ?_, ?_⟩ <;>
    simp [Decision.add_opinion, hfm, h, Decision.opinions]

/-- C10 witness: the blank decision accepts a defaulted opinion. -/
theorem add_opinion_to_blank_decision_witness :
    blankDecision.opinions = []
      ∧ (blankDecision.add_opinion blankAuthorOpinion).2 = none
      ∧ (blankDecision.add_opinion blankAuthorOpinion).1.opinions
        = [blankAuthorOpinion] :=
  add_opinion_to_blank_decision blankDecision blankAuthorOpinion (by decide)

/-- `find_matching_opinion` finds something exactly when some stored
opinion matches the two filters, an empty filter matching anything
(the both-empty branch returns the head, which exists iff any opinion
does). -/
theorem find_matching_opinion_isSome_iff (d : Decision) (t a : String) :
    (d.find_matching_opinion t a).isSome
      ↔ ∃ op ∈ d.opinions, (t = "" ∨ op.type = t) ∧ (a = "" ∨ op.author = a) := by
  unfold Decision.find_matching_opinion
  by_cases ht : t = "" ∧ a = ""
  · rw [if_pos ht]
    obtain ⟨ht1, ht2⟩ := ht
    subst ht1; subst ht2
    rw [List.head?_isSome]
    cases d.opinions with
    | nil => simp
    | cons x xs => simp
  · rw [if_neg ht, List.find?_isSome]
    refine exists_congr fun op => and_congr_right fun _ => ?_
    simp only [Bool.and_eq_true, Bool.or_eq_true, beq_iff_eq]
    constructor
    · rintro ⟨h1, h2⟩
      exact ⟨h1.elim (fun h => Or.inr h.symm) Or.inl,
        h2.elim (fun h => Or.inr h.symm) Or.inl⟩
    · rintro ⟨h1, h2⟩
      exact ⟨h1.elim Or.inr (fun h => Or.inl h.symm),
        h2.elim Or.inr (fun h => Or.inl h.symm)⟩

/-- C1 counterexample: adding a defaulted opinion (`type="majority"`,
`author=""`) to a decision whose only opinion is `("majority",
"Scalia")` raises `DecisionError`, although no stored opinion has the
`(type, author)` pair `("majority", "")`. -/
theorem add_opinion_raises_without_equal_key :
    ((dupDecision.add_opinion blankAuthorOpinion).2).isSome = true
      ∧ ∀ op ∈ dupDecision.opinions,
          ¬(op.type = blankAuthorOpinion.type
            ∧ op.author = blankAuthorOpinion.author) := by decide

/-- C1 (amended): `add_opinion` raises `DecisionError` if and only if
some stored opinion matches the new opinion's type and author, where an
empty type or author on the new opinion matches anything (so equality
of the `(type, author)` pairs suffices but is not necessary); when
nothing matches, the opinion is appended to the decision's opinion
list. -/
theorem add_opinion_raises_iff_wildcard_match (d : Decision) (o : Opinion) :
    (((d.add_opinion o).2).isSome
      ↔ ∃ op ∈ d.opinions,
          (o.type = "" ∨ op.type = o.type) ∧ (o.author = "" ∨ op.author = o.author))
    ∧ ((d.add_opinion o).2 = none
      → (d.add_opinion o).1.opinions = d.opinions ++ [o]) := by
  constructor
  · rw [← find_matching_opinion_isSome_iff]
    unfold Decision.add_opinion
    cases hf : d.find_matching_opinion o.type o.author <;> simp [hf]
  · intro h
    unfold Decision.add_opinion at *
    cases hf : d.find_matching_opinion o.type o.author with
    | some existing => rw [hf] at h; simp at h
    | none => simp [Decision.opinions, getD_casebody_opinions d]

/-- C1 witness: on the decision with no matching opinion, the amended
theorem's success branch yields the appended list. -/
theorem add_opinion_raises_iff_wildcard_match_witness :
    (dupDecision.add_opinion { type := "dissent", author := "Holmes" }).1.opinions
      = dupDecision.opinions ++ [{ type := "dissent", author := "Holmes" }] :=
  (add_opinion_raises_iff_wildcard_match dupDecision
    { type := "dissent", author := "Holmes" }).2 (by decide)

/-! ## Decision display -/

/-- C8: a decision with at least one citation displays as
`"{name_abbreviation or name}, {first citation's cite} ({decision_date})"`,
where the Python `or` falls back to `name` when `name_abbreviation` is
`None` or empty. -/
theorem decision_str_format
    (d : Decision) (c : CAPCitation) (cs : List CAPCitation)
    (h : d.citations = some (c :: cs)) :
    d.str = pyStrOptional (pyOrStr d.name_abbreviation d.name) ++ ", "
      ++ c.cite ++ " (" ++ d.decision_date.iso ++ ")" := by
  simp [Decision.str, h]

/-- C8 witness: the Oracle v. Google record renders exactly as the
repository's own test expects. -/
theorem decision_str_format_witness :
    Decision.str
      { decision_date := ⟨2014, 5, 9⟩,
        name_abbreviation := some "Oracle America, Inc. v. Google Inc.",
        citations := some [{ cite := "750 F.3d 1339" }] }
      = "Oracle America, Inc. v. Google Inc., 750 F.3d 1339 (2014-05-09)" :=
  (decision_str_format _ { cite := "750 F.3d 1339" } [] rfl).trans (by decide)

/-! ## Decision date validator -/

/-- C9: a decision date given as the 7-character string `"YYYY-MM"` has
`"-01"` appended by the validator, so the stored date is the first day
of that month (first conjunct, with ISO parsing modelled from the
spec); strings of any other length pass through the validator
unchanged (second conjunct). -/
theorem decision_date_seven_chars_gets_day_one
    (y1 y2 y3 y4 m1 m2 : Char)
    (h1 : y1.isDigit) (h2 : y2.isDigit) (h3 : y3.isDigit) (h4 : y4.isDigit)
    (h5 : m1.isDigit) (h6 : m2.isDigit) :
    decisionDateOfString (String.mk [y1, y2, y3, y4, '-', m1, m2])
        = some
          { year := ((y1.toNat - 48) * 10 + (y2.toNat - 48)) * 100
              + (y3.toNat - 48) * 10 + (y4.toNat - 48),
            month := (m1.toNat - 48) * 10 + (m2.toNat - 48),
            day := 1 }
      ∧ ∀ s : String, s.length ≠ 7 → decision_date_must_include_day s = s := by
  constructor
  · unfold decisionDateOfString decision_date_must_include_day
    have hlen : (String.mk [y1, y2, y3, y4, '-', m1, m2]).length = 7 := by
      simp [String.length]
    rw [if_pos hlen]
    show parseIsoDate (String.mk ([y1, y2, y3, y4, '-', m1, m2] ++ ['-', '0', '1'])) = _
    simp only [List.cons_append, List.nil_append]
    unfold parseIsoDate
    simp [h1, h2, h3, h4, h5, h6]
  · intro s hs
    unfold decision_date_must_include_day
    rw [if_neg hs]

/-- C9 witness: `"2022-03"` is stored as 2022-03-01, and the
10-character `"1995-03-09"` passes through the validator unchanged. -/
theorem decision_date_seven_chars_gets_day_one_witness :
    decisionDateOfString "2022-03" = some ⟨2022, 3, 1⟩
      ∧ decision_date_must_include_day "1995-03-09" = "1995-03-09" :=
  ⟨((decision_date_seven_chars_gets_day_one '2' '0' '2' '2' '0' '3'
      (by decide) (by decide) (by decide) (by decide) (by decide)
      (by decide)).1).trans (by decide),
   (decision_date_seven_chars_gets_day_one '2' '0' '2' '2' '0' '3'
      (by decide) (by decide) (by decide) (by decide) (by decide)
      (by decide)).2 "1995-03-09" (by decide)⟩

/-! ## Citation normalization -/

/-- The loop of `normalize_case_cite` finds nothing exactly when no
parse is a `CaseCitation`. -/
theorem firstCaseCitation_eq_none_iff (parses : List ParsedCitation) :
    firstCaseCitation parses = none ↔ ∀ p ∈ parses, p.isCase = false := by
  induction parses with
  | nil => simp [firstCaseCitation]
  | cons p rest ih =>
    cases p with
    | caseCite c dsp => simp [firstCaseCitation, ParsedCitation.isCase]
    | other dsp cls => simpa [firstCaseCitation, ParsedCitation.isCase] using ih

/-- C2 counterexample: on a text whose eyecite parse yields two
`CaseCitation`s, `normalize_case_cite` does not raise: it returns the
first one's corrected citation. -/
theorem normalize_case_cite_two_citations_counterexample :
    normalize_case_cite
        (fun _ => [.caseCite "3 U.S. 100" "3 U.S. 100",
                   .caseCite "5 U.S. 200" "5 U.S. 200"])
        (.str "3 US 100, 5 US 200")
      = .ok "3 U.S. 100" := by decide

/-- C2 (amended): on a string input, `normalize_case_cite` raises
`ValueError` if and only if the parser finds zero `CaseCitation`s (the
message naming the text and the class of every offending parse); when
at least one `CaseCitation` is found — even more than one — it returns
the first one's corrected citation. -/
theorem normalize_case_cite_error_iff_no_case_citation
    (getCitations : String → List ParsedCitation) (cite : String) :
    ((∃ e, normalize_case_cite getCitations (.str cite) = .error e)
        ↔ ∀ p ∈ getCitations cite, p.isCase = false)
      ∧ ((∀ p ∈ getCitations cite, p.isCase = false)
        → normalize_case_cite getCitations (.str cite)
          = .error (couldNotLocateMsg cite (getCitations cite)))
      ∧ (∀ c, firstCaseCitation (getCitations cite) = some c
        → normalize_case_cite getCitations (.str cite) = .ok c) := by
  refine ⟨?_, ?_, ?_⟩
  · rw [← firstCaseCitation_eq_none_iff]
    unfold normalize_case_cite normalize_case_cite_str
    cases hf : firstCaseCitation (getCitations cite) <;> simp [hf]
  · intro h
    rw [← firstCaseCitation_eq_none_iff] at h
    simp [normalize_case_cite, normalize_case_cite_str, h]
  · intro c hc
    simp [normalize_case_cite, normalize_case_cite_str, hc]

/-- C2 witness: a parse containing only an `IdCitation` raises the
`ValueError` whose message the repository's own test matches against;
a parse whose only element is a `CaseCitation` succeeds. -/
theorem normalize_case_cite_error_iff_no_case_citation_witness :
    normalize_case_cite (fun _ => [.other "id. at 37" "IdCitation"])
        (.str "id. at 37")
      = .error ("Could not locate a CaseCitation in the text id. at 37."
          ++ " id. at 37 was type IdCitation, not CaseCitation.")
      ∧ normalize_case_cite (fun _ => [.caseCite "3 U.S. 100" "3 U.S. 100"])
        (.str "3 US 100")
      = .ok "3 U.S. 100" :=
  ⟨((normalize_case_cite_error_iff_no_case_citation
      (fun _ => [.other "id. at 37" "IdCitation"]) "id. at 37").2.1
      (by decide)).trans (by decide),
   (normalize_case_cite_error_iff_no_case_citation
      (fun _ => [.caseCite "3 U.S. 100" "3 U.S. 100"]) "3 US 100").2.2
      "3 U.S. 100" (by decide)⟩

/-! ## Quote selector resolution -/

/-- An empty pattern occurs somewhere in every buffer. -/
theorem occurrencesFrom_empty_pat_ne_nil (l : List Char) (i : Nat) :
    occurrencesFrom l [] i ≠ [] := by
  cases l <;> simp [occurrencesFrom, List.isPrefixOf]

/-- Soundness of the occurrence scan: a non-empty result exhibits an
in-range index where the pattern is a prefix of the remaining buffer. -/
theorem exists_prefix_of_occurrencesFrom_ne_nil (l pat : List Char) (i : Nat)
    (h : occurrencesFrom l pat i ≠ []) :
    ∃ k, k ≤ l.length ∧ pat.isPrefixOf (l.drop k) = true := by
  induction l generalizing i with
  | nil =>
    by_cases hp : pat = []
    · exact ⟨0, Nat.le_refl 0, by simp [hp, List.isPrefixOf]⟩
    · simp [occurrencesFrom, hp] at h
  | cons c rest ih =>
    by_cases hp : pat.isPrefixOf (c :: rest) = true
    · exact ⟨0, Nat.zero_le _, by simpa using hp⟩
    · simp only [occurrencesFrom, hp, if_false, List.nil_append] at h
      obtain ⟨k, hk, hpre⟩ := ih (i + 1) h
      exact ⟨k + 1, by simpa using hk, by simpa using hpre⟩

/-- Completeness of the occurrence scan: an in-range index where the
pattern is a prefix of the remaining buffer makes the result
non-empty. -/
theorem occurrencesFrom_ne_nil_of_prefix (l pat : List Char) (k i : Nat)
    (hk : k ≤ l.length) (h : pat.isPrefixOf (l.drop k) = true) :
    occurrencesFrom l pat i ≠ [] := by
  induction l generalizing k i with
  | nil =>
    have hk0 : k = 0 := Nat.le_zero.mp hk
    subst hk0
    cases pat with
    | nil => simp [occurrencesFrom]
    | cons p ps => simp [List.isPrefixOf] at h
  | cons c rest ih =>
    cases k with
    | zero =>
      simp only [List.drop_zero] at h
      simp [occurrencesFrom, h]
    | succ k' =>
      have hne := ih k' (i + 1) (by simpa using hk) (by simpa using h)
      simp only [occurrencesFrom]
      intro hcontra
      exact hne (List.append_eq_nil.mp hcontra).2

/-- C5: a quote selector with no prefix and no suffix whose `exact`
occurs exactly twice in the opinion's text buffer resolves to exactly
two Positions, one per occurrence, each covering the occurrence of
`exact`. -/
theorem locate_text_two_occurrences
    (o : Opinion) (sel : TextQuoteSelector) (i j : Nat)
    (hpre : sel.pre = "") (hsuf : sel.suf = "")
    (h : occurrencesFrom (lowerList o.text.data) (lowerList sel.exact.data) 0
      = [i, j]) :
    o.locate_text (.item (.quote sel))
      = .ok [⟨i, i + sel.exact.length⟩, ⟨j, j + sel.exact.length⟩] := by
  simp only [Opinion.locate_text, fromSelection, resolveItem, locateQuote]
  rw [hpre, hsuf]
  simp only [String.data, List.append_nil, List.nil_append]
  rw [h]
  simp [hpre]

/-- C5 witness: `"abc"` occurs twice in `"abcXabc"` and both Positions
come back. -/
theorem locate_text_two_occurrences_witness :
    Opinion.locate_text { text := "abcXabc" } (.item (.quote { exact := "abc" }))
      = .ok [⟨0, 3⟩, ⟨4, 7⟩] :=
  (locate_text_two_occurrences { text := "abcXabc" } { exact := "abc" } 0 4
    rfl rfl (by decide)).trans (by decide)

/-- C7: a quote selector whose `exact` occurs nowhere in the opinion's
text (so in particular the full `pre ++ exact ++ suf` pattern matches
nowhere) makes `locate_text` fail with a `TextSelectionError` carrying
the unmatched quote and the text it was sought against, and no partial
result. -/
theorem locate_text_no_match_error (o : Opinion) (sel : TextQuoteSelector)
    (h : occurrencesFrom (lowerList o.text.data) (lowerList sel.exact.data) 0
      = []) :
    o.locate_text (.item (.quote sel)) = .error ⟨sel, o.text⟩ := by
  have hq : locateQuote o.text sel = [] := by
    unfold locateQuote
    rw [List.map_eq_nil_iff]
    by_contra hne
    obtain ⟨k, hk, hpre⟩ := exists_prefix_of_occurrencesFrom_ne_nil _ _ _ hne
    rw [List.isPrefixOf_iff_prefix] at hpre
    have hsplit : lowerList (sel.pre.data ++ sel.exact.data ++ sel.suf.data)
        = lowerList sel.pre.data
          ++ (lowerList sel.exact.data ++ lowerList sel.suf.data) := by
      simp [lowerList, List.append_assoc]
    rw [hsplit] at hpre
    obtain ⟨t, ht⟩ := hpre
    have h1 : (lowerList o.text.data).drop (k + (lowerList sel.pre.data).length)
        = lowerList sel.exact.data ++ (lowerList sel.suf.data ++ t) := by
      rw [← List.drop_drop, ← ht]
      simp [List.append_assoc, List.drop_left]
    have hbound : k + (lowerList sel.pre.data).length
        ≤ (lowerList o.text.data).length := by
      have hlen := congrArg List.length ht
      simp only [List.length_append, List.length_drop] at hlen
      omega
    have hex : (lowerList sel.exact.data).isPrefixOf
        ((lowerList o.text.data).drop (k + (lowerList sel.pre.data).length))
        = true := by
      rw [List.isPrefixOf_iff_prefix, h1]
      exact ⟨lowerList sel.suf.data ++ t, rfl⟩
    exact occurrencesFrom_ne_nil_of_prefix _ _ _ 0 hbound hex h
  simp only [Opinion.locate_text, fromSelection, resolveItem]
  rw [hq]

/-- C7 witness: `"xyz"` occurs nowhere in `"hello world"`. -/
theorem locate_text_no_match_error_witness :
    Opinion.locate_text { text := "hello world" }
        (.item (.quote { exact := "xyz" }))
      = .error ⟨{ exact := "xyz" }, "hello world"⟩ :=
  locate_text_no_match_error { text := "hello world" } { exact := "xyz" }
    (by decide)

/-! ## Gap-aware rendering of selected text -/

/-- Extracting the range that a middle segment occupies in an append
recovers that segment. -/
theorem extractRange_exact (A S R : List Char) :
    extractRange (A ++ (S ++ R)) A.length (A.length + S.length) = S := by
  unfold extractRange
  rw [List.drop_left]
  simp [List.take_left]

/-- `extractRange_exact` with the endpoints given as numerals. -/
theorem extractRange_exact_at (A S R : List Char) (a b : Nat)
    (ha : A.length = a) (hb : a + S.length = b) :
    extractRange (A ++ (S ++ R)) a b = S := by
  subst ha
  subst hb
  exact extractRange_exact A S R

/-- The full `select_text` pipeline on a sequence of two position
ranges in order with a gap: resolution succeeds and renders the
normalized two-Position set. -/
theorem select_text_two_pos (o : Opinion) (a b c d : Nat)
    (hab : a ≤ b) (hgap : b < c) :
    o.select_text (.seq [.pos ⟨a, b⟩, .pos ⟨c, d⟩])
      = .ok (asTextString o.text [⟨a, b⟩, ⟨c, d⟩]) := by
  have hac : a < c := lt_of_le_of_lt hab hgap
  have hcb : ¬(c ≤ b) := not_le.mpr hgap
  simp [Opinion.select_text, Opinion.locate_text, fromSelection, resolveItems,
    resolveItem, sortPositions, insertPos, mergePositions, mergeFrom, hac, hcb,
    bind, Except.bind, pure, Except.pure, Except.map]

/-- Rendering two spans that start after 0, have a gap between them,
and end before the buffer does: the two substrings in start order with
the ellipsis character at every gap. -/
theorem asTextString_two_spans (buf : String) (a b c d : Nat)
    (h0 : 0 < a) (hgap : b < c) (hend : d < buf.length) :
    asTextString buf [⟨a, b⟩, ⟨c, d⟩]
      = String.mk ('…' :: (extractRange buf.data a b
          ++ '…' :: (extractRange buf.data c d ++ ['…']))) := by
  unfold asTextString
  simp [h0, hgap, hend, List.getLastD, renderParts]

/-- A buffer shaped like the Lotus opinion: `"method of operation"` at
characters [12821, 12840) and `"or procedure"` at [12851, 12863), with
filler before, between and after. -/
def lotusText : String :=
  String.mk (List.replicate 12821 'x' ++ ("method of operation".data
    ++ (List.replicate 11 'y' ++ ("or procedure".data ++ ['z']))))

/-- On the Lotus-shaped buffer, selecting the two position ranges
renders exactly the snapshot string with leading, middle and trailing
ellipses. -/
theorem lotus_select_text :
    Opinion.select_text { text := lotusText }
        (.seq [.pos ⟨12821, 12840⟩, .pos ⟨12851, 12863⟩])
      = .ok "…method of operation…or procedure…" := by
  have hA : (List.replicate 12821 'x').length = 12821 :=
    List.length_replicate 12821 'x'
  have hS1 : ("method of operation".data).length = 19 := by decide
  have hB : (List.replicate 11 'y').length = 11 :=
    List.length_replicate 11 'y'
  have hS2 : ("or procedure".data).length = 12 := by decide
  have hlen : lotusText.length = 12864 := by
    show (List.replicate 12821 'x' ++ ("method of operation".data
      ++ (List.replicate 11 'y' ++ ("or procedure".data ++ ['z'])))).length
        = 12864
    rw [List.length_append, List.length_append, List.length_append,
      List.length_append, hA, hB, hS1, hS2, List.length_singleton]
  have ex1 : extractRange lotusText.data 12821 12840
      = "method of operation".data :=
    extractRange_exact_at (List.replicate 12821 'x')
      ("method of operation".data)
      (List.replicate 11 'y' ++ ("or procedure".data ++ ['z']))
      12821 12840 hA (by rw [hS1])
  have ex2 : extractRange lotusText.data 12851 12863
      = "or procedure".data := by
    show extractRange (List.replicate 12821 'x' ++ ("method of operation".data
      ++ (List.replicate 11 'y' ++ ("or procedure".data ++ ['z']))))
      12851 12863 = "or procedure".data
    have hgroup : List.replicate 12821 'x' ++ ("method of operation".data
        ++ (List.replicate 11 'y' ++ ("or procedure".data ++ ['z'])))
        = (List.replicate 12821 'x' ++ ("method of operation".data
            ++ List.replicate 11 'y'))
          ++ ("or procedure".data ++ ['z']) := by
      simp only [List.append_assoc]
    rw [hgroup]
    refine extractRange_exact_at _ _ _ 12851 12863 ?_ (by rw [hS2])
    rw [List.length_append, List.length_append, hA, hS1, hB]
  refine (select_text_two_pos _ 12821 12840 12851 12863
    (by norm_num) (by norm_num)).trans ?_
  show Except.ok (asTextString lotusText
    [⟨12821, 12840⟩, ⟨12851, 12863⟩]) = _
  rw [asTextString_two_spans lotusText 12821 12840 12851 12863
    (by norm_num) (by norm_num) (by rw [hlen]; norm_num)]
  rw [ex1, ex2]
  decide

/-- C6: on a buffer with `"method of operation"` at [12821, 12840) and
`"or procedure"` at [12851, 12863), `select_text` on the sequence of
those two position ranges renders `"…method of operation…or
procedure…"` (third conjunct); in general a two-span selection in
start order resolves through the pipeline (first conjunct) and is
rendered as the selected substrings with the literal ellipsis character
wherever a gap exists before, between or after the spans (second
conjunct). -/
theorem select_text_gap_ellipsis_rendering :
    (∀ (o : Opinion) (a b c d : Nat), a ≤ b → b < c →
        o.select_text (.seq [.pos ⟨a, b⟩, .pos ⟨c, d⟩])
          = .ok (asTextString o.text [⟨a, b⟩, ⟨c, d⟩]))
      ∧ (∀ (buf : String) (a b c d : Nat), 0 < a → b < c → d < buf.length →
          asTextString buf [⟨a, b⟩, ⟨c, d⟩]
            = String.mk ('…' :: (extractRange buf.data a b
                ++ '…' :: (extractRange buf.data c d ++ ['…']))))
      ∧ Opinion.select_text { text := lotusText }
          (.seq [.pos ⟨12821, 12840⟩, .pos ⟨12851, 12863⟩])
        = .ok "…method of operation…or procedure…" :=
  ⟨fun o a b c d hab hgap => select_text_two_pos o a b c d hab hgap,
   fun buf a b c d h0 hgap hend => asTextString_two_spans buf a b c d h0 hgap hend,
   lotus_select_text⟩

/-- C6 witness: on a ten-character buffer, spans [1, 3) and [5, 7)
render with all three ellipses. -/
theorem select_text_gap_ellipsis_rendering_witness :
    Opinion.select_text { text := "abcdefghij" }
        (.seq [.pos ⟨1, 3⟩, .pos ⟨5, 7⟩])
      = .ok "…bc…fg…" :=
  (select_text_gap_ellipsis_rendering.1 { text := "abcdefghij" } 1 3 5 7
    (by decide) (by decide)).trans (by decide)

end Justopinion
